import Mathlib

/-!
# Ai-generator: the mock detectors and the two detector flows

A shallow embedding of

* `src/lib/ai-detection.js` (`detectAIImage`, `detectAIText`),
* `src/components/TextDetector.jsx` (`handleTextChange`, `analyzeText`, `resetText`),
* `src/components/ImageDetector.jsx` (`onDrop`, `resetImage`).

Conventions of the embedding.

* A JavaScript string is a Lean `String`; `text.length` counts UTF-16 code units
  (`jsLength`), so a character outside the Basic Multilingual Plane counts twice.
  Strings holding a lone surrogate are not represented.
* A JavaScript number that is finite and non-negative is the natural number of
  units of `2 ^ (-1074)` it holds: every binary64 value is an integer
  multiple of that unit. Arithmetic is exact arithmetic followed by one rounding to
  the nearest binary64 value, ties to even (`fpRound`).
* `Math.random()` is an explicit argument: the three draws a detector makes, in the
  order the source makes them (`Draws`).
* React state is a record; a handler is a function from the state it closes over to
  the state after its setters have run, together with the toasts it raises and the
  asynchronous work it starts.
-/

namespace AiGenerator

/-! ## JavaScript strings -/

/-- White space of ECMAScript (`WhiteSpace` and `LineTerminator`): the characters
matched by the regular expression class `\s` and removed by `String.prototype.trim`. -/
def isJSWhitespace (c : Char) : Bool :=
  let n := c.toNat
  n = 0x09 || n = 0x0A || n = 0x0B || n = 0x0C || n = 0x0D || n = 0x20 || n = 0xA0 ||
  n = 0x1680 || (0x2000 ≤ n && n ≤ 0x200A) || n = 0x2028 || n = 0x2029 || n = 0x202F ||
  n = 0x205F || n = 0x3000 || n = 0xFEFF

/-- Number of UTF-16 code units of one character. -/
def utf16Units (c : Char) : Nat := if c.toNat < 0x10000 then 1 else 2

/-- The `length` property of a string: its number of UTF-16 code units. -/
def jsLength (s : String) : Nat := (s.data.map utf16Units).sum

/-- Characters of `String.prototype.trim`: leading and trailing white space removed. -/
def trimChars (l : List Char) : List Char :=
  ((l.dropWhile isJSWhitespace).reverse.dropWhile isJSWhitespace).reverse

/-- `String.prototype.trim`. -/
def jsTrim (s : String) : String := String.mk (trimChars s.data)

/-- Truthiness of a string: only the empty string is falsy. -/
def strTruthy (s : String) : Bool := !s.data.isEmpty

/-- `String.prototype.startsWith`. -/
def startsWith (s pre : String) : Bool := pre.data.isPrefixOf s.data

/-- Loop of `String.prototype.split` for a separator of the form `/[class]+/`, the
class given by `sep`: `cur` holds (reversed) the piece being read, `skipping` tells
that the previous character belonged to a separator run. A run of separator
characters closes the current piece once; the end of the string closes the last
piece, which may be empty. -/
def splitGo (sep : Char → Bool) : Bool → List Char → List Char → List String
  | _, cur, [] => [String.mk cur.reverse]
  | skipping, cur, c :: cs =>
    if sep c then
      if skipping then splitGo sep true cur cs
      else String.mk cur.reverse :: splitGo sep true [] cs
    else splitGo sep false (c :: cur) cs

/-- `s.split(/[class]+/)` with the class given by `sep`. -/
def jsSplit (sep : Char → Bool) (s : String) : List String :=
  splitGo sep false [] s.data

/-- The class `[.!?]`. -/
def isSentenceEnd (c : Char) : Bool := c = '.' || c = '!' || c = '?'

/-! ## JavaScript numbers -/

/-! A finite non-negative binary64 value is held as a `Nat`: its number of units of
`2 ^ (-1074)`. -/

/-- Number of binary places of the unit: `1074`. -/
def unitBits : Nat := 1074

/-- The number `1`, in units of `2 ^ (-1074)`. -/
def one : Nat := 2 ^ unitBits

/-- An integer literal as a number. -/
def ofInt (n : Nat) : Nat := n * one

/-- Round `m / 2 ^ s` to the nearest integer, ties to even. -/
def roundNE (m s : Nat) : Nat :=
  let q := m / 2 ^ s
  let rem := m % 2 ^ s
  let half := 2 ^ (s - 1)
  if rem < half then q
  else if half < rem then q + 1
  else if q % 2 = 0 then q else q + 1

/-- Binary logarithm by repeated halving, at most `fuel` times. -/
def log2Fuel : Nat → Nat → Nat
  | 0, _ => 0
  | fuel + 1, n => if n < 2 then 0 else log2Fuel fuel (n / 2) + 1

/-- Position of the leading bit of `n`: the floor of its binary logarithm. -/
def ilog2 (n : Nat) : Nat := log2Fuel n n

/-- Round the exact value `m / 2 ^ k` units to binary64, ties to even: at most 53
significant bits are kept and nothing below one unit. Overflow to `Infinity`
(results of `2 ^ 1024` and above) is not represented; no value computed below
exceeds `128`. -/
def fpRound (m k : Nat) : Nat :=
  let s := max k (ilog2 m - 52)
  roundNE m s * 2 ^ (s - k)

/-- The literal `0.5`. -/
def half : Nat := 2 ^ 1073

/-- Addition of two numbers. -/
def add (x y : Nat) : Nat := fpRound (x + y) 0

/-- Multiplication of two numbers: the exact product is in units of `2 ^ (-2148)`. -/
def mul (x y : Nat) : Nat := fpRound (x * y) unitBits

/-- `Math.floor`, whose result here is a natural number. -/
def mathFloor (x : Nat) : Nat := x / one

/-- The literal `1.5`. -/
def oneAndHalf : Nat := 3 * 2 ^ 1073

/-- The literal `0.8`: the binary64 value nearest to 8/10 is
`3602879701896397 / 2 ^ 52`. -/
def zeroPointEight : Nat := 3602879701896397 * 2 ^ 1022

/-- `x.toFixed(1)`: the integer `n` for which `n / 10 - x` is closest to zero, the
larger one on a tie, printed with one digit after the decimal point. -/
def toFixed1 (x : Nat) : String :=
  let n := (20 * x + one) / (2 * one)
  toString (n / 10) ++ "." ++ toString (n % 10)

/-- Division of two numbers, the divisor not zero. The exact quotient is cut one
binary place below the unit, and a sticky bit in the place after it tells whether
anything was cut off, so that the rounding sees on which side of a tie the quotient
lies. -/
def div (x y : Nat) : Nat :=
  let n := x * 2 ^ (unitBits + 1)
  fpRound (2 * (n / y) + (if n % y = 0 then 0 else 1)) 2

/-- `Math.round`: the nearest integer, the larger one on a tie. -/
def mathRound (x : Nat) : Nat := (x + half) / one

/-! ## `src/lib/ai-detection.js` -/

/-- The values returned by the three calls of `Math.random()` a detector makes, in
order: verdict, confidence, analysis time. -/
structure Draws where
  r1 : Nat
  r2 : Nat
  r3 : Nat
  deriving DecidableEq

/-- A value `Math.random()` can return: a binary64 value in `[0, 1)`. -/
def isDraw (r : Nat) : Prop := r < one ∧ fpRound r 0 = r

instance (r : Nat) : Decidable (isDraw r) := by unfold isDraw; infer_instance

/-- A file handed to the drop zone: its name and MIME type. -/
structure File where
  name : String
  type : String
  deriving DecidableEq

/-- The record returned by `detectAIImage`. -/
structure ImageResult where
  isAI : Bool
  confidence : Nat
  analysisTime : String
  description : String
  patterns : List String
  deriving DecidableEq

/-- The record returned by `detectAIText`. -/
structure TextResult where
  isAI : Bool
  confidence : Nat
  analysisTime : String
  description : String
  details : List String
  deriving DecidableEq

/-- The value `detectAIImage(image)` resolves to, for the three draws `r`. -/
def detectAIImage (image : File) (r : Draws) : ImageResult :=
  let isAI := decide (half < r.r1)
  let confidence :=
    if isAI then mathFloor (add (ofInt 70) (mul r.r2 (ofInt 25)))
    else mathFloor (add (ofInt 65) (mul r.r2 (ofInt 30)))
  { isAI := isAI
    confidence := confidence
    analysisTime := toFixed1 (add (ofInt 1) (mul r.r3 (ofInt 2)))
    description :=
      if isAI then
        "This image shows patterns consistent with AI-generated content. The analysis detected unnatural textures, unusual symmetry, and other artifacts typical of AI generation."
      else
        "This image appears to be created by a human. The analysis found natural variations, realistic details, and other characteristics consistent with human-created content."
    patterns :=
      if isAI then
        ["Unnatural textures", "Unusual symmetry", "Inconsistent lighting",
          "Unrealistic details"]
      else
        ["Natural variations", "Realistic details", "Consistent lighting",
          "Authentic composition"] }

/-- The statistics sentence of `detectAIText`, shared by both templates. -/
def statsLine (wordCount avgSentenceLength : Nat) : String :=
  "Text contains " ++ toString wordCount ++ " words with an average sentence length of " ++
    toString avgSentenceLength ++ " words"

/-- The statistics sentence `detectAIText` builds for a text: its `wordCount`,
`sentenceCount` and `avgSentenceLength`, put into the sentence. -/
def textStatistics (text : String) : String :=
  let wordCount := (jsSplit isJSWhitespace text).length
  let sentenceCount := (jsSplit isSentenceEnd text).length - 1
  let avgSentenceLength := mathRound (div (ofInt wordCount) (ofInt (max 1 sentenceCount)))
  statsLine wordCount avgSentenceLength

/-- The value `detectAIText(text)` resolves to, for the three draws `r`. -/
def detectAIText (text : String) (r : Draws) : TextResult :=
  let isAI := decide (half < r.r1)
  let confidence :=
    if isAI then mathFloor (add (ofInt 75) (mul r.r2 (ofInt 20)))
    else mathFloor (add (ofInt 60) (mul r.r2 (ofInt 35)))
  let wordCount := (jsSplit isJSWhitespace text).length
  let sentenceCount := (jsSplit isSentenceEnd text).length - 1
  let avgSentenceLength := mathRound (div (ofInt wordCount) (ofInt (max 1 sentenceCount)))
  { isAI := isAI
    confidence := confidence
    analysisTime := toFixed1 (add zeroPointEight (mul r.r3 oneAndHalf))
    description :=
      if isAI then
        "This text shows characteristics typical of AI-generated content. The analysis detected patterns in word choice, sentence structure, and stylistic elements that are consistent with AI writing."
      else
        "This text appears to be written by a human. The analysis found natural language patterns, varied sentence structures, and stylistic elements consistent with human writing."
    details :=
      if isAI then
        ["Repetitive sentence structures detected",
          "Unusual word pattern frequency identified",
          statsLine wordCount avgSentenceLength,
          "Limited stylistic variation throughout the content"]
      else
        ["Natural language patterns detected",
          "Varied sentence structures and word choices",
          statsLine wordCount avgSentenceLength,
          "Consistent voice and tone throughout the content"] }

/-! ## The components -/

/-- A notification passed to `toast`. -/
structure Toast where
  title : String
  description : String
  variant : Option String
  deriving DecidableEq

/-- What a handler leaves behind: the component state after its setters, the toasts
it raised, and the argument of the asynchronous call it started, if it started one. -/
structure Outcome (σ α : Type) where
  state : σ
  toasts : List Toast
  started : Option α
  deriving DecidableEq

/-! ### `src/components/TextDetector.jsx` -/

/-- State of `TextDetector`: the three `useState` cells. -/
structure TextState where
  text : String
  loading : Bool
  result : Option TextResult
  deriving DecidableEq

/-- `handleTextChange`, for an event whose `target.value` is `value`. -/
def handleTextChange (s : TextState) (value : String) : TextState :=
  { s with text := value, result := if s.result.isSome then none else s.result }

/-- `analyzeText` up to its `await`: the guard, and behind it `setLoading(true)` and
the call `detectAIText(text)`. -/
def analyzeText (s : TextState) : Outcome TextState String :=
  if !strTruthy (jsTrim s.text) || decide (jsLength s.text < 50) then
    { state := s
      toasts := [{ title := "Text too short"
                   description := "Please enter at least 50 characters for accurate analysis."
                   variant := some "destructive" }]
      started := none }
  else
    { state := { s with loading := true }, toasts := [], started := some s.text }

/-- `analyzeText` after its `await` when the promise is fulfilled with
`detectionResult`: the rest of the `try` block, then `finally`. -/
def analyzeTextFulfilled (s : TextState) (detectionResult : TextResult) :
    Outcome TextState String :=
  { state := { s with result := some detectionResult, loading := false }
    toasts := [{ title := "Analysis Complete"
                 description := "Your text has been successfully analyzed."
                 variant := none }]
    started := none }

/-- `analyzeText` after its `await` when the promise is rejected: the `catch`
block, then `finally`. -/
def analyzeTextRejected (s : TextState) : Outcome TextState String :=
  { state := { s with loading := false }
    toasts := [{ title := "Analysis Failed"
                 description := "There was an error analyzing your text. Please try again."
                 variant := some "destructive" }]
    started := none }

/-- `resetText`. -/
def resetText (s : TextState) : TextState :=
  { s with text := "", result := none }

/-! ### `src/components/ImageDetector.jsx` -/

/-- State of `ImageDetector`: the four `useState` cells. -/
structure ImageState where
  image : Option File
  preview : String
  loading : Bool
  result : Option ImageResult
  deriving DecidableEq

/-- `onDrop`, up to the start of `reader.readAsDataURL(file)`; the file being read
is the started call. -/
def onDrop (s : ImageState) (acceptedFiles : List File) : Outcome ImageState File :=
  match acceptedFiles.head? with
  | none => { state := s, toasts := [], started := none }
  | some file =>
    if !startsWith file.type "image/" then
      { state := s
        toasts := [{ title := "Invalid file type"
                     description := "Please upload an image file (JPEG, PNG, etc.)"
                     variant := some "destructive" }]
        started := none }
    else
      { state := { s with image := some file, result := none }
        toasts := []
        started := some file }

/-- The `reader.onload` callback of `onDrop`, `reader.result` being `dataUrl`. -/
def readerOnload (s : ImageState) (dataUrl : String) : ImageState :=
  { s with preview := dataUrl }

/-- `resetImage`. -/
def resetImage (s : ImageState) : ImageState :=
  { s with image := none, preview := "", result := none }

/-- `analyzeImage` up to its `await`. -/
def analyzeImage (s : ImageState) : Outcome ImageState File :=
  match s.image with
  | none => { state := s, toasts := [], started := none }
  | some image => { state := { s with loading := true }, toasts := [], started := some image }

/-! ### The text flow as a transition system -/

/-- The text flow: the component state and the texts captured by the calls of
`analyzeText` that still await their promise, oldest first. -/
structure TextFlow where
  ui : TextState
  pending : List String
  deriving DecidableEq

/-- What can happen to the text flow. -/
inductive TextEvent where
  | change (value : String)
  | submit
  | success (r : Draws)
  | failure
  | clear
  deriving DecidableEq

/-- The flow when the component is mounted. -/
def TextFlow.init : TextFlow :=
  { ui := { text := "", loading := false, result := none }, pending := [] }

/-- One step of the text flow. `submit` is a click on the Analyze Text button, which
is rendered only when neither `loading` nor `result` is set; `clear` is a click on
the Clear button, rendered only when `text` is non-empty; `success` and `failure`
settle the oldest pending call, with the text that call captured. An event that
cannot happen in a state leaves the state as it is. -/
def TextFlow.step (f : TextFlow) : TextEvent → TextFlow
  | .change value => { f with ui := handleTextChange f.ui value }
  | .submit =>
    if f.ui.loading || f.ui.result.isSome then f
    else
      let o := analyzeText f.ui
      { ui := o.state, pending := f.pending ++ o.started.toList }
  | .success r =>
    match f.pending with
    | [] => f
    | text :: rest =>
      { ui := (analyzeTextFulfilled f.ui (detectAIText text r)).state, pending := rest }
  | .failure =>
    match f.pending with
    | [] => f
    | _ :: rest => { ui := (analyzeTextRejected f.ui).state, pending := rest }
  | .clear => if strTruthy f.ui.text then { f with ui := resetText f.ui } else f

/-- The flow after a sequence of events. -/
def TextFlow.run (f : TextFlow) (events : List TextEvent) : TextFlow :=
  events.foldl TextFlow.step f

/-- The states the text flow can reach from the mounted component. -/
def TextFlow.Reachable (f : TextFlow) : Prop :=
  ∃ events, TextFlow.run TextFlow.init events = f

/-- No event of the sequence changes or clears the text while a call of
`analyzeText` is pending. -/
def TextFlow.noEditInFlight (f : TextFlow) : List TextEvent → Bool
  | [] => true
  | e :: events =>
    (match e with
      | .change _ => f.pending.isEmpty
      | .clear => f.pending.isEmpty
      | _ => true) && TextFlow.noEditInFlight (f.step e) events

/-- A result is displayed: the result card is rendered when `loading` is off and
`result` is set. -/
def TextState.displays (s : TextState) (res : TextResult) : Prop :=
  s.loading = false ∧ s.result = some res

instance (s : TextState) (res : TextResult) : Decidable (s.displays res) := by
  unfold TextState.displays; infer_instance


/-- The guard of `analyzeText` lets the text through. -/
def passesGuard (text : String) : Prop :=
  strTruthy (jsTrim text) = true ∧ 50 ≤ jsLength text

instance (text : String) : Decidable (passesGuard text) := by
  unfold passesGuard; infer_instance

/-- The result held by the flow comes from the text held by the flow, and so will
the result of every pending call. -/
def TextFlow.Fresh (f : TextFlow) : Prop :=
  (∀ t ∈ f.pending, t = f.ui.text) ∧
    ∀ res, f.ui.result = some res → ∃ r, res = detectAIText f.ui.text r

/-- The event settles a pending call of `analyzeText`. -/
def TextEvent.settles : TextEvent → Bool
  | .success _ => true
  | .failure => true
  | _ => false

/-- A click on Analyze Text starts a request in this state: the button is rendered
(`loading` off, no `result`) and the text passes the guard of `analyzeText`. -/
def TextFlow.accepts (f : TextFlow) : Prop :=
  f.ui.loading = false ∧ f.ui.result = none ∧ passesGuard f.ui.text

instance (f : TextFlow) : Decidable f.accepts := by
  unfold TextFlow.accepts; infer_instance

/-- The history behind the state reached by `events`. A pending call was started by
a submit of the history that the flow accepted, captured the text held at that
submit, and has seen no settling event since. A result held by the flow was
installed by a success event of the history, which settled the call started by the
last accepted submit before it, from the text held at that submit; nothing has
changed the state since. -/
def TextFlow.Traced (events : List TextEvent) : Prop :=
  ((TextFlow.init.run events).pending = [] ∨
      ((TextFlow.init.run events).ui.loading = true ∧
        ∃ pre mid, events = pre ++ TextEvent.submit :: mid ∧
          (∀ e ∈ mid, e.settles = false) ∧ (TextFlow.init.run pre).accepts ∧
          (TextFlow.init.run events).pending = [(TextFlow.init.run pre).ui.text])) ∧
    ∀ res, (TextFlow.init.run events).ui.result = some res →
      (TextFlow.init.run events).pending = [] ∧
        (TextFlow.init.run events).ui.loading = false ∧
        ∃ pre mid r post,
          events = pre ++ TextEvent.submit :: (mid ++ TextEvent.success r :: post) ∧
          (∀ e ∈ mid, e.settles = false) ∧ (TextFlow.init.run pre).accepts ∧
          TextFlow.init.run events =
            TextFlow.init.run (pre ++ TextEvent.submit :: (mid ++ [TextEvent.success r])) ∧
          res = detectAIText (TextFlow.init.run pre).ui.text r

/-! ### Counting as the specification words it -/

/-- Number of maximal runs of characters satisfying `p`; `inRun` tells that the
previous character satisfied `p`. -/
def countRuns (p : Char → Bool) : Bool → List Char → Nat
  | _, [] => 0
  | inRun, c :: cs =>
    if p c then (if inRun then countRuns p true cs else countRuns p true cs + 1)
    else countRuns p false cs

/-- The number of words of a text, as the specification words it: the number of
maximal runs of non-whitespace characters. -/
def specWordCount (text : String) : Nat :=
  countRuns (fun c => !isJSWhitespace c) false text.data

/-- The number of maximal runs of the characters `.`, `!` and `?` of a text. -/
def specSentenceRuns (text : String) : Nat :=
  countRuns isSentenceEnd false text.data

/-- The last character does not satisfy `p`; for no character at all, `b`. -/
def endsOutside (p : Char → Bool) : Bool → List Char → Bool
  | b, [] => b
  | _, c :: cs => endsOutside p (!p c) cs

/-! ### Inputs used as examples -/

/-- The largest binary64 value below `1`, which is `1 - 2 ^ (-53)`. -/
def maxDraw : Nat := one - 2 ^ 1021

/-- The largest multiple of `2 ^ (-52)` below `1`, which is `1 - 2 ^ (-52)`: the
largest draw of a generator that fills the 52 fraction bits of a number in `[1, 2)`
and subtracts `1`. -/
def maxDraw52 : Nat := one - 2 ^ 1022

/-- The number `0.75`. -/
def threeQuarters : Nat := 3 * 2 ^ 1072

/-- The number `0.25`. -/
def oneQuarter : Nat := 2 ^ 1072

/-- A text of 50 characters: one letter followed by 49 spaces. -/
def paddedLetter : String := String.mk (List.replicate 1 'a' ++ List.replicate 49 ' ')

/-- A text of 50 spaces. -/
def fiftySpaces : String := String.mk (List.replicate 50 ' ')

/-- A text of 50 letters. -/
def fiftyLetters : String := String.mk (List.replicate 50 'a')

/-- A text of 49 letters. -/
def fortyNineLetters : String := String.mk (List.replicate 49 'a')

/-- A text of 50 characters: one space followed by 49 letters. -/
def leadingSpace : String := String.mk (List.replicate 1 ' ' ++ List.replicate 49 'a')

/-- A PDF file. -/
def pdfFile : File := { name := "report.pdf", type := "application/pdf" }

/-- A PNG file. -/
def pngFile : File := { name := "photo.png", type := "image/png" }

/-- A short text of two words. -/
def shortNote : String := "Short note"

/-- A session of the text flow: 50 letters are typed and submitted, the text is
replaced while the analysis runs, then the analysis succeeds. -/
def staleSession : List TextEvent :=
  [.change fiftyLetters, .submit, .change shortNote, .success ⟨threeQuarters, oneQuarter, half⟩]

/-- A session of the text flow: 50 letters are typed and submitted, and the analysis
succeeds. -/
def plainSession : List TextEvent :=
  [.change fiftyLetters, .submit, .success ⟨threeQuarters, oneQuarter, half⟩]

/-- The image flow when the component is mounted: the state `Empty`. -/
def ImageState.empty : ImageState :=
  { image := none, preview := "", loading := false, result := none }

/-! ## Rounding lemmas -/

theorem log2Fuel_le (fuel : Nat) : ∀ n k, n < 2 ^ (k + 1) → log2Fuel fuel n ≤ k := by
  induction fuel with
  | zero => intro n k _; simp [log2Fuel]
  | succ f ih =>
    intro n k h
    unfold log2Fuel
    split
    · exact Nat.zero_le _
    · rename_i h2
      cases k with
      | zero => simp at h; omega
      | succ k =>
        have h3 : n / 2 < 2 ^ (k + 1) := by
          rw [Nat.div_lt_iff_lt_mul (by decide)]
          rw [pow_succ] at h
          exact h
        have := ih _ _ h3
        omega

theorem ilog2_le (n k : Nat) (h : n < 2 ^ (k + 1)) : ilog2 n ≤ k :=
  log2Fuel_le n n k h

theorem le_roundNE (m s A : Nat) (h : A * 2 ^ s ≤ m) : A ≤ roundNE m s := by
  have hq : A ≤ m / 2 ^ s := (Nat.le_div_iff_mul_le (by positivity)).2 h
  unfold roundNE
  simp only
  split_ifs <;> omega

theorem roundNE_le (m s B : Nat) (h : m ≤ B * 2 ^ s) : roundNE m s ≤ B := by
  have hpos : 0 < 2 ^ s := by positivity
  have hq : m / 2 ^ s ≤ B := by
    calc m / 2 ^ s ≤ B * 2 ^ s / 2 ^ s := Nat.div_le_div_right h
      _ = B := Nat.mul_div_cancel _ hpos
  rcases Nat.lt_or_ge (m / 2 ^ s) B with hlt | hge
  · unfold roundNE
    simp only
    split_ifs <;> omega
  · have hqB : m / 2 ^ s = B := le_antisymm hq hge
    have hdm := Nat.div_add_mod m (2 ^ s)
    rw [hqB, Nat.mul_comm] at hdm
    have hrem : m % 2 ^ s = 0 := by omega
    have hh : 0 < 2 ^ (s - 1) := by positivity
    unfold roundNE
    simp only [hrem, hh, if_true, hqB, le_refl]

/-- Rounding `m / 2 ^ s` to an integer moves it by at most one half. -/
theorem roundNE_near (m s : Nat) :
    2 * (roundNE m s * 2 ^ s) ≤ 2 * m + 2 ^ s ∧ 2 * m ≤ 2 * (roundNE m s * 2 ^ s) + 2 ^ s := by
  have hdm := Nat.div_add_mod m (2 ^ s)
  have hlt : m % 2 ^ s < 2 ^ s := Nat.mod_lt _ (by positivity)
  rw [Nat.mul_comm] at hdm
  have hsucc : (m / 2 ^ s + 1) * 2 ^ s = m / 2 ^ s * 2 ^ s + 2 ^ s := by
    rw [Nat.add_mul, Nat.one_mul]
  have hhalf2 : s ≠ 0 → 2 ^ s = 2 * 2 ^ (s - 1) := by
    intro h
    obtain ⟨n, rfl⟩ := Nat.exists_eq_succ_of_ne_zero h
    rw [Nat.succ_sub_one, pow_succ, Nat.mul_comm]
  by_cases hs : s = 0
  · subst hs
    simp [roundNE, Nat.mod_one]
  · have h2 := hhalf2 hs
    unfold roundNE
    simp only
    split_ifs <;> (try rw [hsucc]) <;> omega

theorem one_pos : 0 < one := by unfold one; positivity

/-- Rounding to binary64 does not cross an integer: the integers below `2 ^ 53` are
binary64 values, and rounding is monotone. Here `m / 2 ^ k` units is below the
number `2 ^ 53`. -/
theorem fpRound_between (m k N : Nat) (hm : m < 2 ^ 53 * one * 2 ^ k) :
    (ofInt N * 2 ^ k ≤ m → ofInt N ≤ fpRound m k) ∧
    (m ≤ ofInt N * 2 ^ k → fpRound m k ≤ ofInt N) := by
  have hlog : ilog2 m ≤ 52 + unitBits + k := by
    apply ilog2_le
    have e : 2 ^ (52 + unitBits + k + 1) = 2 ^ 53 * one * 2 ^ k := by
      unfold one
      rw [← pow_add, ← pow_add]
      congr 1
      omega
    rw [e]
    exact hm
  obtain ⟨d, hd⟩ : ∃ d, d = max k (ilog2 m - 52) - k := ⟨_, rfl⟩
  have hd1 : d ≤ unitBits := by omega
  have hs : max k (ilog2 m - 52) = d + k := by omega
  have hN : ofInt N = N * 2 ^ (unitBits - d) * 2 ^ d := by
    unfold ofInt one
    rw [Nat.mul_assoc, ← pow_add]
    congr 2
    omega
  have hfp : fpRound m k = roundNE m (d + k) * 2 ^ d := by
    unfold fpRound
    simp only [hs, Nat.add_sub_cancel]
  rw [hfp, hN]
  constructor
  · intro h
    apply Nat.mul_le_mul_right
    apply le_roundNE
    rw [pow_add, ← Nat.mul_assoc]
    exact h
  · intro h
    apply Nat.mul_le_mul_right
    apply roundNE_le
    rw [pow_add, ← Nat.mul_assoc]
    exact h

/-- The confidence expression `Math.floor(base + Math.random() * span)` stays between
`base` and `base + span`, both included. -/
theorem mathFloor_add_mul_between (r base span : Nat) (hr : r < one)
    (hbs : base + span < 2 ^ 53) :
    base ≤ mathFloor (add (ofInt base) (mul r (ofInt span))) ∧
      mathFloor (add (ofInt base) (mul r (ofInt span))) ≤ base + span := by
  have h1 := one_pos
  have hone : one = 2 ^ unitBits := rfl
  have hspan : span < 2 ^ 53 := by omega
  -- the product does not exceed `span`
  have hp : mul r (ofInt span) ≤ ofInt span := by
    unfold mul
    have hle : r * ofInt span ≤ ofInt span * 2 ^ unitBits := by
      rw [← hone, Nat.mul_comm]
      exact Nat.mul_le_mul_left _ hr.le
    refine (fpRound_between _ unitBits span ?_).2 hle
    have h2 : ofInt span * 2 ^ unitBits < 2 ^ 53 * one * 2 ^ unitBits := by
      unfold ofInt
      exact Nat.mul_lt_mul_of_pos_right (Nat.mul_lt_mul_of_pos_right hspan h1)
        (by positivity)
    exact Nat.lt_of_le_of_lt hle h2
  -- the sum lies between `base` and `base + span`
  have hlo : ofInt base * 2 ^ 0 ≤ ofInt base + mul r (ofInt span) := by
    rw [pow_zero, Nat.mul_one]; exact Nat.le_add_right _ _
  have hhi : ofInt base + mul r (ofInt span) ≤ ofInt (base + span) * 2 ^ 0 := by
    rw [pow_zero, Nat.mul_one]
    unfold ofInt at hp ⊢
    rw [Nat.add_mul]
    exact Nat.add_le_add_left hp _
  have hm : ofInt base + mul r (ofInt span) < 2 ^ 53 * one * 2 ^ 0 := by
    have h2 : ofInt (base + span) * 2 ^ 0 < 2 ^ 53 * one * 2 ^ 0 := by
      unfold ofInt
      exact Nat.mul_lt_mul_of_pos_right (Nat.mul_lt_mul_of_pos_right hbs h1)
        (by positivity)
    exact Nat.lt_of_le_of_lt hhi h2
  have hA := (fpRound_between _ 0 base hm).1 hlo
  have hB := (fpRound_between _ 0 (base + span) hm).2 hhi
  unfold mathFloor add
  constructor
  · exact (Nat.le_div_iff_mul_le h1).2 hA
  · calc fpRound (ofInt base + mul r (ofInt span)) 0 / one
        ≤ ofInt (base + span) / one := Nat.div_le_div_right hB
      _ = base + span := by unfold ofInt; exact Nat.mul_div_cancel _ h1

theorem log2Fuel_eq_log2 (fuel : Nat) : ∀ n, n < 2 ^ fuel → log2Fuel fuel n = Nat.log2 n := by
  induction fuel with
  | zero =>
    intro n h
    have h0 : n = 0 := by simpa using h
    subst h0
    rw [Nat.log2]
    simp [log2Fuel]
  | succ f ih =>
    intro n h
    rw [Nat.log2]
    unfold log2Fuel
    by_cases h2 : n < 2
    · have : ¬ n ≥ 2 := by omega
      simp [h2, this]
    · have h3 : n ≥ 2 := by omega
      have h4 : n / 2 < 2 ^ f := by
        rw [Nat.div_lt_iff_lt_mul (by decide)]
        rw [pow_succ] at h
        exact h
      simp [h2, h3, ih _ h4]

/-- The logarithm used by `fpRound` is the binary logarithm. -/
theorem ilog2_eq_log2 (n : Nat) : ilog2 n = Nat.log2 n :=
  log2Fuel_eq_log2 n n (Nat.lt_two_pow n)

/-- The arithmetic agrees with binary64 on known values: `0.1 + 0.2` is
`0.30000000000000004`, `1 / 3` is `6004799503160661 / 2 ^ 54`, `7 / 3` is
`5254199565265579 / 2 ^ 51`, `0.7 * 25` is `17.5`, `(1 - 2 ^ (-53)) * 25` is
`25 - 2 ^ (-48)`, and `0.8 + 0.3 * 1.5` is `1.25`. -/
theorem binary64_known_values :
    add (3602879701896397 * 2 ^ 1019) (3602879701896397 * 2 ^ 1020) =
        1351079888211149 * 2 ^ 1022 ∧
      div (ofInt 1) (ofInt 3) = 6004799503160661 * 2 ^ 1020 ∧
      div (ofInt 7) (ofInt 3) = 5254199565265579 * 2 ^ 1023 ∧
      mul (3152519739159347 * 2 ^ 1022) (ofInt 25) = 35 * 2 ^ 1073 ∧
      mul maxDraw (ofInt 25) = ofInt 25 - 2 ^ 1026 ∧
      add zeroPointEight (mul (5404319552844595 * 2 ^ 1020) oneAndHalf) = 5 * 2 ^ 1072 := by
  decide!

/-! ## The confidence bands (C4) -/

/-- C4 (counterexample): with the verdict draw `0.75` and the confidence draw
`1 - 2 ^ (-53)`, both binary64 values in `[0, 1)`, `detectAIImage` returns
`isAI = true` with confidence `95`, outside the claimed `70..94`: the product
`r2 * 25` rounds to `25 - 2 ^ (-48)` and the sum `70 + (25 - 2 ^ (-48))` rounds up
to `95`. The confidence draw `1 - 2 ^ (-52)` gives `95` as well, and so do the
human band of `detectAIImage` (verdict draw `0.25`) and both bands of
`detectAIText`. -/
theorem C4_counterexample :
    isDraw threeQuarters ∧ isDraw oneQuarter ∧ isDraw maxDraw ∧ isDraw maxDraw52 ∧
      (detectAIImage pngFile ⟨threeQuarters, maxDraw, oneQuarter⟩).isAI = true ∧
      (detectAIImage pngFile ⟨threeQuarters, maxDraw, oneQuarter⟩).confidence = 95 ∧
      ¬ (detectAIImage pngFile ⟨threeQuarters, maxDraw, oneQuarter⟩).confidence ≤ 94 ∧
      (detectAIImage pngFile ⟨threeQuarters, maxDraw52, oneQuarter⟩).confidence = 95 ∧
      (detectAIImage pngFile ⟨oneQuarter, maxDraw, oneQuarter⟩).isAI = false ∧
      (detectAIImage pngFile ⟨oneQuarter, maxDraw, oneQuarter⟩).confidence = 95 ∧
      (detectAIText fiftyLetters ⟨threeQuarters, maxDraw, oneQuarter⟩).isAI = true ∧
      (detectAIText fiftyLetters ⟨threeQuarters, maxDraw, oneQuarter⟩).confidence = 95 ∧
      (detectAIText fiftyLetters ⟨oneQuarter, maxDraw, oneQuarter⟩).isAI = false ∧
      (detectAIText fiftyLetters ⟨oneQuarter, maxDraw, oneQuarter⟩).confidence = 95 := by
  decide!

/-- C4 (amended): for every input and all draws with the confidence draw in
`[0, 1)`, the confidence of `detectAIImage` lies in `70..95` when `isAI` and in
`65..95` otherwise, that of `detectAIText` in `75..95` when `isAI` and in `60..95`
otherwise; so both lie in `60..100`, and in `0..100`. -/
theorem C4_confidence_bounds (image : File) (text : String) (r : Draws)
    (h2 : r.r2 < one) :
    ((detectAIImage image r).isAI = true →
        70 ≤ (detectAIImage image r).confidence ∧ (detectAIImage image r).confidence ≤ 95) ∧
      ((detectAIImage image r).isAI = false →
        65 ≤ (detectAIImage image r).confidence ∧ (detectAIImage image r).confidence ≤ 95) ∧
      ((detectAIText text r).isAI = true →
        75 ≤ (detectAIText text r).confidence ∧ (detectAIText text r).confidence ≤ 95) ∧
      ((detectAIText text r).isAI = false →
        60 ≤ (detectAIText text r).confidence ∧ (detectAIText text r).confidence ≤ 95) ∧
      (60 ≤ (detectAIImage image r).confidence ∧ (detectAIImage image r).confidence ≤ 100) ∧
      (60 ≤ (detectAIText text r).confidence ∧ (detectAIText text r).confidence ≤ 100) := by
  have a := mathFloor_add_mul_between r.r2 70 25 h2 (by norm_num)
  have b := mathFloor_add_mul_between r.r2 65 30 h2 (by norm_num)
  have c := mathFloor_add_mul_between r.r2 75 20 h2 (by norm_num)
  have d := mathFloor_add_mul_between r.r2 60 35 h2 (by norm_num)
  simp only [detectAIImage, detectAIText]
  by_cases h : half < r.r1
  · simp only [h, decide_True, if_true]
    omega
  · simp only [h, decide_False]
    simp
    omega

/-- C4 (witness): the bounds at the verdict draw `0.75` and the confidence draw
`1 - 2 ^ (-53)`. -/
theorem C4_confidence_bounds_witness :
    (Draws.mk threeQuarters maxDraw oneQuarter).r2 < one ∧
      (60 ≤ (detectAIImage pngFile ⟨threeQuarters, maxDraw, oneQuarter⟩).confidence ∧
        (detectAIImage pngFile ⟨threeQuarters, maxDraw, oneQuarter⟩).confidence ≤ 100) :=
  ⟨by decide!,
    (C4_confidence_bounds pngFile fiftyLetters ⟨threeQuarters, maxDraw, oneQuarter⟩
      (by decide!)).2.2.2.2.1⟩

/-! ## The guards and the resets (C1, C2, C3, C7, C8) -/

theorem jsTrim_eq_empty_iff (t : String) : jsTrim t = "" ↔ strTruthy (jsTrim t) = false := by
  unfold strTruthy jsTrim
  constructor
  · intro h
    have := congrArg String.data h
    simp at this
    simp [this]
  · intro h
    simp at h
    simp [h]

/-- C1 (counterexample): the text made of one letter followed by 49 spaces has
trimmed length `1`, below 50, yet `analyzeText` does not reject it: no toast is
raised, `loading` is set and `detectAIText` is called with the text. -/
theorem C1_counterexample :
    jsLength (jsTrim paddedLetter) = 1 ∧ jsLength paddedLetter = 50 ∧
      analyzeText ⟨paddedLetter, false, none⟩ =
        { state := ⟨paddedLetter, true, none⟩, toasts := [], started := some paddedLetter } := by
  decide

/-- C1 (amended): for every text that is empty after trimming or whose untrimmed
length is below 50, `analyzeText` rejects the submission: it leaves `text`,
`loading` and `result` as they are, raises the "Text too short" toast and does not
call `detectAIText`. -/
theorem C1_blank_or_short_rejected (s : TextState)
    (h : jsTrim s.text = "" ∨ jsLength s.text < 50) :
    (analyzeText s).state = s ∧
      (analyzeText s).toasts.map Toast.title = ["Text too short"] ∧
      (analyzeText s).started = none := by
  have hg : (!strTruthy (jsTrim s.text) || decide (jsLength s.text < 50)) = true := by
    rcases h with h | h
    · simp [(jsTrim_eq_empty_iff s.text).1 h]
    · simp [h]
  unfold analyzeText
  rw [if_pos hg]
  exact ⟨rfl, rfl, rfl⟩

/-- C1 (witness): the amended claim at a text of 49 letters. -/
theorem C1_blank_or_short_rejected_witness :
    (jsTrim fortyNineLetters = "" ∨ jsLength fortyNineLetters < 50) ∧
      (analyzeText ⟨fortyNineLetters, false, none⟩).state = ⟨fortyNineLetters, false, none⟩ ∧
      (analyzeText ⟨fortyNineLetters, false, none⟩).toasts.map Toast.title =
        ["Text too short"] ∧
      (analyzeText ⟨fortyNineLetters, false, none⟩).started = none :=
  ⟨by decide, C1_blank_or_short_rejected ⟨fortyNineLetters, false, none⟩ (by decide)⟩

/-- C2 (counterexample): the text of 50 spaces has exactly 50 characters and
`analyzeText` rejects it with the "Text too short" toast, without starting the
analysis. -/
theorem C2_counterexample :
    jsLength fiftySpaces = 50 ∧
      (analyzeText ⟨fiftySpaces, false, none⟩).state = ⟨fiftySpaces, false, none⟩ ∧
      (analyzeText ⟨fiftySpaces, false, none⟩).toasts.map Toast.title = ["Text too short"] ∧
      (analyzeText ⟨fiftySpaces, false, none⟩).started = none := by
  decide

/-- C2 (amended): every text of exactly 50 characters (UTF-16 code units, as
`text.length` counts them) that is not empty after trimming passes the guard of
`analyzeText`, which sets `loading`, raises no toast and calls `detectAIText` with
the text; every text of 49 characters is rejected with the "Text too short" toast. -/
theorem C2_length_boundary :
    (∀ s : TextState, jsLength s.text = 50 → jsTrim s.text ≠ "" →
        analyzeText s =
          { state := { s with loading := true }, toasts := [], started := some s.text }) ∧
      (∀ s : TextState, jsLength s.text = 49 →
        (analyzeText s).state = s ∧
          (analyzeText s).toasts.map Toast.title = ["Text too short"] ∧
          (analyzeText s).started = none) := by
  constructor
  · intro s h50 hne
    have ht : strTruthy (jsTrim s.text) = true := by
      cases hb : strTruthy (jsTrim s.text)
      · exact absurd ((jsTrim_eq_empty_iff s.text).2 hb) hne
      · rfl
    have hg : ¬ (!strTruthy (jsTrim s.text) || decide (jsLength s.text < 50)) = true := by
      simp [ht, h50]
    unfold analyzeText
    rw [if_neg hg]
  · intro s h49
    have hg : (!strTruthy (jsTrim s.text) || decide (jsLength s.text < 50)) = true := by
      simp [h49]
    unfold analyzeText
    rw [if_pos hg]
    exact ⟨rfl, rfl, rfl⟩

/-- C2 (witness): 50 letters are allowed, 49 letters are rejected. -/
theorem C2_length_boundary_witness :
    (jsLength fiftyLetters = 50 ∧ jsTrim fiftyLetters ≠ "" ∧
        analyzeText ⟨fiftyLetters, false, none⟩ =
          { state := ⟨fiftyLetters, true, none⟩, toasts := [],
            started := some fiftyLetters }) ∧
      (jsLength fortyNineLetters = 49 ∧
        (analyzeText ⟨fortyNineLetters, false, none⟩).started = none) :=
  ⟨⟨by decide, by decide,
      C2_length_boundary.1 ⟨fiftyLetters, false, none⟩ (by decide) (by decide)⟩,
    ⟨by decide,
      (C2_length_boundary.2 ⟨fortyNineLetters, false, none⟩ (by decide)).2.2⟩⟩

/-- C3: for every dropped file whose MIME type does not start with "image/",
`onDrop` raises the "Invalid file type" toast, starts no read of the file and
leaves the whole state (`image`, `preview`, `loading`, `result`) as it is; a flow
that was `Empty` remains `Empty`. -/
theorem C3_non_image_rejected (s : ImageState) (file : File) (rest : List File)
    (h : startsWith file.type "image/" = false) :
    (onDrop s (file :: rest)).state = s ∧
      (onDrop s (file :: rest)).toasts.map Toast.title = ["Invalid file type"] ∧
      (onDrop s (file :: rest)).started = none ∧
      (s = ImageState.empty → (onDrop s (file :: rest)).state = ImageState.empty) := by
  have e : onDrop s (file :: rest) =
      { state := s
        toasts := [{ title := "Invalid file type"
                     description := "Please upload an image file (JPEG, PNG, etc.)"
                     variant := some "destructive" }]
        started := none } := by
    simp [onDrop, h]
  rw [e]
  exact ⟨rfl, rfl, rfl, fun h => h⟩

/-- C3 (witness): a dropped `.pdf` file of type `application/pdf` on the empty flow. -/
theorem C3_non_image_rejected_witness :
    startsWith pdfFile.type "image/" = false ∧
      (onDrop ImageState.empty [pdfFile]).state = ImageState.empty ∧
      (onDrop ImageState.empty [pdfFile]).toasts.map Toast.title = ["Invalid file type"] ∧
      (onDrop ImageState.empty [pdfFile]).started = none :=
  ⟨by decide,
    (C3_non_image_rejected ImageState.empty pdfFile [] (by decide)).1,
    (C3_non_image_rejected ImageState.empty pdfFile [] (by decide)).2.1,
    (C3_non_image_rejected ImageState.empty pdfFile [] (by decide)).2.2.1⟩

/-- C7: for every state of the image flow `resetImage` yields `image = null`,
`preview = ''` and `result = null`; for every state of the text flow `resetText`
yields `text = ''` and `result = null`; both leave `loading` as it is. -/
theorem C7_reset_clears :
    (∀ s : ImageState, resetImage s =
        { image := none, preview := "", loading := s.loading, result := none }) ∧
      (∀ s : TextState, resetText s = { text := "", loading := s.loading, result := none }) :=
  ⟨fun _ => rfl, fun _ => rfl⟩

theorem handleTextChange_eq (s : TextState) (value : String) :
    handleTextChange s value = { text := value, loading := s.loading, result := none } := by
  unfold handleTextChange
  cases hr : s.result <;> simp

/-- C8: for every state of the text flow and every new value, `handleTextChange`
stores the value as `text`, leaves `result` null and `loading` as it is; applied
to a state whose result is already null it leaves the result null, and two
successive changes give the same `result` (indeed the same state) as the last one
alone. -/
theorem C8_change_clears_result :
    (∀ (s : TextState) (value : String),
        handleTextChange s value = { text := value, loading := s.loading, result := none }) ∧
      (∀ (text value : String) (loading : Bool),
        (handleTextChange ⟨text, loading, none⟩ value).result = none) ∧
      (∀ (s : TextState) (v w : String),
        (handleTextChange (handleTextChange s v) w).result = (handleTextChange s w).result ∧
          handleTextChange (handleTextChange s v) w = handleTextChange s w) := by
  have h := handleTextChange_eq
  refine ⟨h, ?_, ?_⟩
  · intro text value loading
    rw [h]
  · intro s v w
    rw [h, h, h]
    exact ⟨rfl, rfl⟩

/-! ## The verdict and the templates (C5, C6) -/

/-- C5: the verdict is not derived from the content of the input. With the draws
held fixed, `detectAIImage` returns the same record for any two images, and
`detectAIText` returns for any two texts the same `isAI`, `confidence`,
`analysisTime` and `description` and two lists of four details that agree once the
statistics entry (the third) is taken out. -/
theorem C5_verdict_ignores_input :
    (∀ (image1 image2 : File) (r : Draws), detectAIImage image1 r = detectAIImage image2 r) ∧
      (∀ (text1 text2 : String) (r : Draws),
        (detectAIText text1 r).isAI = (detectAIText text2 r).isAI ∧
          (detectAIText text1 r).confidence = (detectAIText text2 r).confidence ∧
          (detectAIText text1 r).analysisTime = (detectAIText text2 r).analysisTime ∧
          (detectAIText text1 r).description = (detectAIText text2 r).description ∧
          (detectAIText text1 r).details.length = 4 ∧
          (detectAIText text2 r).details.length = 4 ∧
          (detectAIText text1 r).details.eraseIdx 2 =
            (detectAIText text2 r).details.eraseIdx 2) := by
  constructor
  · intro image1 image2 r
    simp only [detectAIImage]
  · intro text1 text2 r
    simp only [detectAIText, true_and]
    cases decide (half < r.r1)
    · simp only [Bool.false_eq_true, if_false, List.eraseIdx_cons_succ,
        List.eraseIdx_cons_zero, List.length_cons, List.length_nil, and_self]
    · simp only [if_true, List.eraseIdx_cons_succ,
        List.eraseIdx_cons_zero, List.length_cons, List.length_nil, and_self]

/-- C6: `isAI` selects the template. For every input and all draws, `isAI` is the
outcome of `Math.random() > 0.5`, and both outcomes occur. Every result of
`detectAIImage` carries the AI description and the four AI patterns when `isAI`,
the human description and the four human patterns otherwise; every result of
`detectAIText` carries the AI description and the three AI details when `isAI`, the
human ones otherwise, around the statistics sentence of the text, which stands in
third place in both templates. The two templates differ, so the description is the
AI wording exactly when `isAI` is true. -/
theorem C6_isAI_selects_template :
    (∀ (image : File) (r : Draws),
        (detectAIImage image r).isAI = decide (half < r.r1) ∧
        (detectAIImage image r).description =
          (if (detectAIImage image r).isAI then
            "This image shows patterns consistent with AI-generated content. The analysis detected unnatural textures, unusual symmetry, and other artifacts typical of AI generation."
          else
            "This image appears to be created by a human. The analysis found natural variations, realistic details, and other characteristics consistent with human-created content.") ∧
        (detectAIImage image r).patterns =
          (if (detectAIImage image r).isAI then
            ["Unnatural textures", "Unusual symmetry", "Inconsistent lighting",
              "Unrealistic details"]
          else
            ["Natural variations", "Realistic details", "Consistent lighting",
              "Authentic composition"]) ∧
        (detectAIImage image r).patterns.length = 4 ∧
        ((detectAIImage image r).description =
            "This image shows patterns consistent with AI-generated content. The analysis detected unnatural textures, unusual symmetry, and other artifacts typical of AI generation." ↔
          (detectAIImage image r).isAI = true)) ∧
      (∀ (text : String) (r : Draws),
        (detectAIText text r).isAI = decide (half < r.r1) ∧
        (detectAIText text r).description =
          (if (detectAIText text r).isAI then
            "This text shows characteristics typical of AI-generated content. The analysis detected patterns in word choice, sentence structure, and stylistic elements that are consistent with AI writing."
          else
            "This text appears to be written by a human. The analysis found natural language patterns, varied sentence structures, and stylistic elements consistent with human writing.") ∧
        (detectAIText text r).details =
          (if (detectAIText text r).isAI then
            ["Repetitive sentence structures detected",
              "Unusual word pattern frequency identified",
              textStatistics text,
              "Limited stylistic variation throughout the content"]
          else
            ["Natural language patterns detected",
              "Varied sentence structures and word choices",
              textStatistics text,
              "Consistent voice and tone throughout the content"]) ∧
        (detectAIText text r).details.length = 4 ∧
        ((detectAIText text r).description =
            "This text shows characteristics typical of AI-generated content. The analysis detected patterns in word choice, sentence structure, and stylistic elements that are consistent with AI writing." ↔
          (detectAIText text r).isAI = true)) ∧
      (detectAIImage pngFile ⟨threeQuarters, oneQuarter, half⟩).isAI = true ∧
      (detectAIImage pngFile ⟨oneQuarter, oneQuarter, half⟩).isAI = false ∧
      (detectAIText fiftyLetters ⟨threeQuarters, oneQuarter, half⟩).isAI = true ∧
      (detectAIText fiftyLetters ⟨oneQuarter, oneQuarter, half⟩).isAI = false := by
  refine ⟨?_, ?_, by decide!, by decide!, by decide!, by decide!⟩
  · intro image r
    by_cases h : half < r.r1
    · simp only [detectAIImage, h, decide_True, if_true]
      clear h
      refine ⟨?_, ?_, ?_, ?_, ?_⟩ <;> first | exact True.intro | rfl
    · simp only [detectAIImage, h, decide_False]
      clear h
      refine ⟨?_, ?_, ?_, ?_, ?_⟩ <;> first | exact True.intro | rfl | decide
  · intro text r
    by_cases h : half < r.r1
    · simp only [detectAIText, textStatistics, h, decide_True, if_true]
      clear h
      refine ⟨?_, ?_, ?_, ?_, ?_⟩ <;> first | exact True.intro | rfl
    · simp only [detectAIText, textStatistics, h, decide_False]
      clear h
      refine ⟨?_, ?_, ?_, ?_, ?_⟩ <;> first | exact True.intro | rfl | decide

/-! ## The text flow (C9) -/

theorem analyzeText_spec (s : TextState) :
    (analyzeText s).state.text = s.text ∧ (analyzeText s).state.result = s.result ∧
      ((analyzeText s).started = none ∨
        ((analyzeText s).started = some s.text ∧ passesGuard s.text)) := by
  unfold analyzeText
  split_ifs with hg
  · exact ⟨rfl, rfl, Or.inl rfl⟩
  · refine ⟨rfl, rfl, Or.inr ⟨rfl, ?_⟩⟩
    unfold passesGuard
    simp at hg
    exact ⟨hg.1, hg.2⟩

theorem detectAIText_stats (text : String) (r : Draws) :
    (detectAIText text r).details[2]? = some (textStatistics text) := by
  simp only [detectAIText, textStatistics]
  split_ifs <;> rfl

theorem TextFlow.fresh_step (f : TextFlow) (e : TextEvent) (hf : f.Fresh)
    (he : f.noEditInFlight [e] = true) : (f.step e).Fresh := by
  obtain ⟨hp, hr⟩ := hf
  cases e with
  | change value =>
    have hpe : f.pending = [] := by simpa [TextFlow.noEditInFlight] using he
    simp only [TextFlow.step, handleTextChange_eq]
    exact ⟨by simp [hpe], by simp⟩
  | submit =>
    simp only [TextFlow.step]
    split_ifs with hgate
    · exact ⟨hp, hr⟩
    · obtain ⟨ht, hres, hst⟩ := analyzeText_spec f.ui
      refine ⟨?_, ?_⟩
      · intro t hmem
        simp only [ht]
        rcases List.mem_append.1 hmem with h | h
        · exact hp t h
        · rcases hst with h0 | ⟨h1, _⟩
          · simp [h0] at h
          · simp [h1] at h
            exact h
      · intro res h
        simp only [ht]
        rw [hres] at h
        exact hr res h
  | success r =>
    simp only [TextFlow.step]
    split
    · exact ⟨hp, hr⟩
    · rename_i text rest hpend
      have htext : text = f.ui.text := hp text (by simp [hpend])
      refine ⟨?_, ?_⟩
      · intro t hmem
        exact hp t (by simp [hpend, hmem])
      · intro res h
        simp only [analyzeTextFulfilled] at h ⊢
        refine ⟨r, ?_⟩
        rw [← htext]
        simpa using h.symm
  | failure =>
    simp only [TextFlow.step]
    split
    · exact ⟨hp, hr⟩
    · rename_i text rest hpend
      refine ⟨?_, ?_⟩
      · intro t hmem
        exact hp t (by simp [hpend, hmem])
      · intro res h
        exact hr res h
  | clear =>
    have hpe : f.pending = [] := by simpa [TextFlow.noEditInFlight] using he
    simp only [TextFlow.step]
    split_ifs
    · exact ⟨by simp [hpe], by simp [resetText]⟩
    · exact ⟨hp, hr⟩

theorem TextFlow.fresh_run (events : List TextEvent) :
    ∀ f : TextFlow, f.Fresh → f.noEditInFlight events = true → (f.run events).Fresh := by
  induction events with
  | nil => intro f hf _; exact hf
  | cons e es ih =>
    intro f hf h
    have h1 : f.noEditInFlight [e] = true ∧ (f.step e).noEditInFlight es = true := by
      simp only [TextFlow.noEditInFlight, Bool.and_eq_true, Bool.and_true] at h ⊢
      exact h
    exact ih (f.step e) (TextFlow.fresh_step f e hf h1.1) h1.2

theorem TextFlow.fresh_init : TextFlow.init.Fresh :=
  ⟨by simp [TextFlow.init], by simp [TextFlow.init]⟩

theorem TextFlow.run_snoc (f : TextFlow) (events : List TextEvent) (e : TextEvent) :
    f.run (events ++ [e]) = (f.run events).step e := by
  simp [TextFlow.run, List.foldl_append]

/-- An event that leaves the state as it is leaves the history behind a result as
it is. -/
theorem TextFlow.traced_result_idle (events : List TextEvent) (e : TextEvent)
    (hidle : (TextFlow.init.run events).step e = TextFlow.init.run events)
    (h : TextFlow.Traced events) :
    ∀ res, (TextFlow.init.run (events ++ [e])).ui.result = some res →
      (TextFlow.init.run (events ++ [e])).pending = [] ∧
        (TextFlow.init.run (events ++ [e])).ui.loading = false ∧
        ∃ pre mid r post,
          events ++ [e] = pre ++ TextEvent.submit :: (mid ++ TextEvent.success r :: post) ∧
          (∀ e ∈ mid, e.settles = false) ∧ (TextFlow.init.run pre).accepts ∧
          TextFlow.init.run (events ++ [e]) =
            TextFlow.init.run (pre ++ TextEvent.submit :: (mid ++ [TextEvent.success r])) ∧
          res = detectAIText (TextFlow.init.run pre).ui.text r := by
  intro res hres
  rw [TextFlow.run_snoc, hidle] at hres ⊢
  obtain ⟨hp, hl, pre, mid, r, post, hev, hmid, hacc, hrun, hr⟩ := h.2 res hres
  refine ⟨hp, hl, pre, mid, r, post ++ [e], ?_, hmid, hacc, hrun, hr⟩
  rw [hev]
  simp

/-- An event that settles nothing and keeps `pending` and `loading` keeps the
history behind the pending call. -/
theorem TextFlow.traced_pending_keep (events : List TextEvent) (e : TextEvent)
    (hset : e.settles = false)
    (hpend : ((TextFlow.init.run events).step e).pending = (TextFlow.init.run events).pending)
    (hload : ((TextFlow.init.run events).step e).ui.loading =
      (TextFlow.init.run events).ui.loading)
    (h : TextFlow.Traced events) :
    (TextFlow.init.run (events ++ [e])).pending = [] ∨
      ((TextFlow.init.run (events ++ [e])).ui.loading = true ∧
        ∃ pre mid, events ++ [e] = pre ++ TextEvent.submit :: mid ∧
          (∀ e ∈ mid, e.settles = false) ∧ (TextFlow.init.run pre).accepts ∧
          (TextFlow.init.run (events ++ [e])).pending = [(TextFlow.init.run pre).ui.text]) := by
  rw [TextFlow.run_snoc, hpend, hload]
  rcases h.1 with h0 | ⟨hl, pre, mid, hev, hmid, hacc, hp⟩
  · exact Or.inl h0
  · refine Or.inr ⟨hl, pre, mid ++ [e], ?_, ?_, hacc, hp⟩
    · rw [hev]
      simp
    · intro x hx
      rcases List.mem_append.1 hx with hx | hx
      · exact hmid x hx
      · simp at hx
        rw [hx]
        exact hset

theorem TextFlow.traced_snoc (events : List TextEvent) (e : TextEvent)
    (h : TextFlow.Traced events) : TextFlow.Traced (events ++ [e]) := by
  cases e with
  | change value =>
    refine ⟨TextFlow.traced_pending_keep events _ rfl ?_ ?_ h, ?_⟩
    · simp [TextFlow.step]
    · simp [TextFlow.step, handleTextChange_eq]
    · intro res hres
      rw [TextFlow.run_snoc] at hres
      simp [TextFlow.step, handleTextChange_eq] at hres
  | clear =>
    by_cases ht : strTruthy (TextFlow.init.run events).ui.text = true
    · refine ⟨TextFlow.traced_pending_keep events _ rfl ?_ ?_ h, ?_⟩
      · simp [TextFlow.step, ht]
      · simp [TextFlow.step, ht, resetText]
      · intro res hres
        rw [TextFlow.run_snoc] at hres
        simp [TextFlow.step, ht, resetText] at hres
    · have hidle : (TextFlow.init.run events).step TextEvent.clear =
          TextFlow.init.run events := by
        simp [TextFlow.step, ht]
      refine ⟨TextFlow.traced_pending_keep events _ rfl ?_ ?_ h,
        TextFlow.traced_result_idle events _ hidle h⟩
      · rw [hidle]
      · rw [hidle]
  | submit =>
    by_cases hgate : ((TextFlow.init.run events).ui.loading ||
        (TextFlow.init.run events).ui.result.isSome) = true
    · have hidle : (TextFlow.init.run events).step TextEvent.submit =
          TextFlow.init.run events := by
        simp only [TextFlow.step, hgate, if_true]
      refine ⟨TextFlow.traced_pending_keep events _ rfl ?_ ?_ h,
        TextFlow.traced_result_idle events _ hidle h⟩
      · rw [hidle]
      · rw [hidle]
    · have hload : (TextFlow.init.run events).ui.loading = false := by
        cases hl : (TextFlow.init.run events).ui.loading
        · rfl
        · simp [hl] at hgate
      have hres0 : (TextFlow.init.run events).ui.result = none := by
        cases hr : (TextFlow.init.run events).ui.result
        · rfl
        · simp [hr] at hgate
      have hpend0 : (TextFlow.init.run events).pending = [] := by
        rcases h.1 with h0 | ⟨hl, _⟩
        · exact h0
        · rw [hload] at hl
          exact absurd hl (by decide)
      by_cases hg : (!strTruthy (jsTrim (TextFlow.init.run events).ui.text) ||
          decide (jsLength (TextFlow.init.run events).ui.text < 50)) = true
      · have hidle : (TextFlow.init.run events).step TextEvent.submit =
            TextFlow.init.run events := by
          simp only [TextFlow.step, hgate, analyzeText, hg, if_true]
          simp
        refine ⟨TextFlow.traced_pending_keep events _ rfl ?_ ?_ h,
          TextFlow.traced_result_idle events _ hidle h⟩
        · rw [hidle]
        · rw [hidle]
      · have hstep : (TextFlow.init.run events).step TextEvent.submit =
            { ui := { (TextFlow.init.run events).ui with loading := true }
              pending := [(TextFlow.init.run events).ui.text] } := by
          simp only [TextFlow.step, hgate, analyzeText, hg, hpend0]
          simp
        have hacc : (TextFlow.init.run events).accepts := by
          refine ⟨hload, hres0, ?_⟩
          unfold passesGuard
          simp at hg
          exact ⟨hg.1, hg.2⟩
        refine ⟨Or.inr ?_, ?_⟩
        · rw [TextFlow.run_snoc, hstep]
          exact ⟨rfl, events, [], rfl, by simp, hacc, rfl⟩
        · intro res hres
          rw [TextFlow.run_snoc, hstep] at hres
          simp [hres0] at hres
  | success r =>
    cases hpend : (TextFlow.init.run events).pending with
    | nil =>
      have hidle : (TextFlow.init.run events).step (TextEvent.success r) =
          TextFlow.init.run events := by
        simp only [TextFlow.step, hpend]
      refine ⟨Or.inl ?_, TextFlow.traced_result_idle events _ hidle h⟩
      rw [TextFlow.run_snoc, hidle, hpend]
    | cons text rest =>
      have hstep : (TextFlow.init.run events).step (TextEvent.success r) =
          { ui := { (TextFlow.init.run events).ui with
                      result := some (detectAIText text r), loading := false }
            pending := rest } := by
        simp only [TextFlow.step, hpend, analyzeTextFulfilled]
      rcases h.1 with h0 | ⟨_, pre, mid, hev, hmid, hacc, hp⟩
      · rw [hpend] at h0
        exact absurd h0 (by simp)
      · rw [hpend] at hp
        have htext : text = (TextFlow.init.run pre).ui.text := by
          simpa using congrArg List.head? hp
        have hrest : rest = [] := by
          simpa using congrArg List.tail hp
        refine ⟨Or.inl ?_, ?_⟩
        · rw [TextFlow.run_snoc, hstep, hrest]
        · intro res hres
          rw [TextFlow.run_snoc, hstep] at hres ⊢
          refine ⟨hrest, rfl, pre, mid, r, [], ?_, hmid, hacc, ?_, ?_⟩
          · rw [hev]
            simp
          · rw [← hstep, ← TextFlow.run_snoc, hev]
            simp
          · rw [← htext]
            simpa using hres.symm
  | failure =>
    cases hpend : (TextFlow.init.run events).pending with
    | nil =>
      have hidle : (TextFlow.init.run events).step TextEvent.failure =
          TextFlow.init.run events := by
        simp only [TextFlow.step, hpend]
      refine ⟨Or.inl ?_, TextFlow.traced_result_idle events _ hidle h⟩
      rw [TextFlow.run_snoc, hidle, hpend]
    | cons text rest =>
      have hstep : (TextFlow.init.run events).step TextEvent.failure =
          { ui := { (TextFlow.init.run events).ui with loading := false }
            pending := rest } := by
        simp only [TextFlow.step, hpend, analyzeTextRejected]
      rcases h.1 with h0 | ⟨_, pre, mid, hev, hmid, hacc, hp⟩
      · rw [hpend] at h0
        exact absurd h0 (by simp)
      · rw [hpend] at hp
        have hrest : rest = [] := by
          simpa using congrArg List.tail hp
        refine ⟨Or.inl ?_, ?_⟩
        · rw [TextFlow.run_snoc, hstep, hrest]
        · intro res hres
          rw [TextFlow.run_snoc, hstep] at hres
          have hp0 := (h.2 res hres).1
          rw [hpend] at hp0
          exact absurd hp0 (by simp)

theorem TextFlow.traced_run (events : List TextEvent) : TextFlow.Traced events := by
  induction events using List.reverseRecOn with
  | nil =>
    refine ⟨Or.inl rfl, ?_⟩
    intro res hres
    simp [TextFlow.run, TextFlow.init] at hres
  | append_singleton es e ih => exact TextFlow.traced_snoc es e ih


theorem TextFlow.run_append (f : TextFlow) (xs ys : List TextEvent) :
    f.run (xs ++ ys) = (f.run xs).run ys := by
  simp [TextFlow.run, List.foldl_append]

theorem TextFlow.noEditInFlight_prefix (xs ys : List TextEvent) :
    ∀ f : TextFlow, f.noEditInFlight (xs ++ ys) = true → f.noEditInFlight xs = true := by
  induction xs with
  | nil => intro f _; rfl
  | cons e es ih =>
    intro f h
    simp only [List.cons_append, TextFlow.noEditInFlight, Bool.and_eq_true] at h ⊢
    exact ⟨h.1, ih _ h.2⟩

/-- After an accepted submit, and as long as nothing settles, the one pending call
holds the text of that submit. -/
theorem TextFlow.pending_after_accept (pre mid : List TextEvent)
    (hacc : (TextFlow.init.run pre).accepts) (hmid : ∀ e ∈ mid, e.settles = false) :
    (TextFlow.init.run (pre ++ TextEvent.submit :: mid)).pending =
        [(TextFlow.init.run pre).ui.text] ∧
      (TextFlow.init.run (pre ++ TextEvent.submit :: mid)).ui.loading = true := by
  induction mid using List.reverseRecOn with
  | nil =>
    obtain ⟨hload, hres, hguard⟩ := hacc
    have hpend0 : (TextFlow.init.run pre).pending = [] := by
      rcases (TextFlow.traced_run pre).1 with h0 | ⟨hl, _⟩
      · exact h0
      · rw [hload] at hl
        exact absurd hl (by decide)
    have hg : ¬ (!strTruthy (jsTrim (TextFlow.init.run pre).ui.text) ||
        decide (jsLength (TextFlow.init.run pre).ui.text < 50)) = true := by
      unfold passesGuard at hguard
      simp [hguard.1]
      exact hguard.2
    rw [TextFlow.run_snoc]
    simp only [TextFlow.step, hload, hres, analyzeText, hg, hpend0]
    simp
  | append_singleton ms e ih =>
    have hms : ∀ x ∈ ms, x.settles = false := fun x hx => hmid x (by simp [hx])
    have he : e.settles = false := hmid e (by simp)
    obtain ⟨hp, hl⟩ := ih hms
    have hlist : pre ++ TextEvent.submit :: (ms ++ [e]) =
        (pre ++ TextEvent.submit :: ms) ++ [e] := by simp
    rw [hlist, TextFlow.run_snoc]
    cases e with
    | change value => simp [TextFlow.step, handleTextChange_eq, hp, hl]
    | clear =>
      simp only [TextFlow.step]
      split_ifs
      · simp [resetText, hp, hl]
      · exact ⟨hp, hl⟩
    | submit => simp [TextFlow.step, hp, hl]
    | success r => simp [TextEvent.settles] at he
    | failure => simp [TextEvent.settles] at he

/-- When no event changes or clears the text while a call is pending, the text
captured by the request that produced the result is the text held at the end. -/
theorem TextFlow.captured_eq_current (events pre mid post : List TextEvent) (r : Draws)
    (hev : events = pre ++ TextEvent.submit :: (mid ++ TextEvent.success r :: post))
    (hmid : ∀ e ∈ mid, e.settles = false) (hacc : (TextFlow.init.run pre).accepts)
    (hrun : TextFlow.init.run events =
      TextFlow.init.run (pre ++ TextEvent.submit :: (mid ++ [TextEvent.success r])))
    (hquiet : TextFlow.init.noEditInFlight events = true) :
    (TextFlow.init.run pre).ui.text = (TextFlow.init.run events).ui.text := by
  obtain ⟨hp, _⟩ := TextFlow.pending_after_accept pre mid hacc hmid
  have hlist : events = (pre ++ TextEvent.submit :: mid) ++ (TextEvent.success r :: post) := by
    rw [hev]; simp
  have hq : TextFlow.init.noEditInFlight (pre ++ TextEvent.submit :: mid) = true := by
    rw [hlist] at hquiet
    exact TextFlow.noEditInFlight_prefix _ _ _ hquiet
  have hfresh := TextFlow.fresh_run _ TextFlow.init TextFlow.fresh_init hq
  have htext : (TextFlow.init.run pre).ui.text =
      (TextFlow.init.run (pre ++ TextEvent.submit :: mid)).ui.text :=
    hfresh.1 _ (by rw [hp]; simp)
  have hlist2 : pre ++ TextEvent.submit :: (mid ++ [TextEvent.success r]) =
      (pre ++ TextEvent.submit :: mid) ++ [TextEvent.success r] := by simp
  rw [hrun, hlist2, TextFlow.run_snoc, htext]
  simp only [TextFlow.step, hp, analyzeTextFulfilled]


/-- C9 (counterexample): 50 letters are typed and submitted, the text is replaced
by "Short note" while the analysis runs, and the analysis succeeds. The state
reached holds the text "Short note" and displays the result that `detectAIText`
computed from the 50 letters, which `detectAIText` gives for "Short note" under no
draws: its statistics entry counts one word, that of "Short note" two. -/
theorem C9_counterexample :
    (TextFlow.init.run staleSession).Reachable ∧
      (TextFlow.init.run staleSession).ui.text = shortNote ∧
      (TextFlow.init.run staleSession).ui.displays
        (detectAIText fiftyLetters ⟨threeQuarters, oneQuarter, half⟩) ∧
      ¬ ∃ r, detectAIText fiftyLetters ⟨threeQuarters, oneQuarter, half⟩ =
        detectAIText (TextFlow.init.run staleSession).ui.text r := by
  have htext : (TextFlow.init.run staleSession).ui.text = shortNote := by decide!
  refine ⟨⟨staleSession, rfl⟩, htext, by decide!, ?_⟩
  rintro ⟨r, h⟩
  rw [htext] at h
  have h2 := congrArg (fun res : TextResult => res.details[2]?) h
  simp only [detectAIText_stats] at h2
  revert h2
  decide!

/-- C9 (amended): in the text flow, every result that is displayed was installed by
a success event of the history: the events are `pre`, a submit that the flow
accepted (button rendered, guard passed), events `mid` that settle nothing, the
success with draws `r`, and events `post` that left the state as the success made
it; the result is what `detectAIText` computes with `r` from the text held at that
submit, the text the request captured. Whenever no event changed or cleared the
text while a call of `analyzeText` was pending, the captured text is the text
currently held, and the result was computed from the text currently held. -/
theorem C9_displayed_result_provenance (events : List TextEvent) (res : TextResult)
    (hd : (TextFlow.init.run events).ui.displays res) :
    (∃ pre mid r post,
        events = pre ++ TextEvent.submit :: (mid ++ TextEvent.success r :: post) ∧
        (∀ e ∈ mid, e.settles = false) ∧ (TextFlow.init.run pre).accepts ∧
        TextFlow.init.run events =
          TextFlow.init.run (pre ++ TextEvent.submit :: (mid ++ [TextEvent.success r])) ∧
        res = detectAIText (TextFlow.init.run pre).ui.text r ∧
        (TextFlow.init.noEditInFlight events = true →
          (TextFlow.init.run pre).ui.text = (TextFlow.init.run events).ui.text)) ∧
      (TextFlow.init.noEditInFlight events = true →
        ∃ r, res = detectAIText (TextFlow.init.run events).ui.text r) := by
  obtain ⟨pre, mid, r, post, hev, hmid, hacc, hrun, hres⟩ :=
    ((TextFlow.traced_run events).2 res hd.2).2.2
  exact ⟨⟨pre, mid, r, post, hev, hmid, hacc, hrun, hres,
      TextFlow.captured_eq_current events pre mid post r hev hmid hacc hrun⟩,
    fun h => (TextFlow.fresh_run events TextFlow.init TextFlow.fresh_init h).2 res hd.2⟩

/-- C9 (witness): 50 letters are typed and submitted, and the analysis succeeds. -/
theorem C9_displayed_result_provenance_witness :
    (TextFlow.init.run plainSession).ui.displays
        (detectAIText fiftyLetters ⟨threeQuarters, oneQuarter, half⟩) ∧
      TextFlow.init.noEditInFlight plainSession = true ∧
      (∃ pre mid r post,
        plainSession = pre ++ TextEvent.submit :: (mid ++ TextEvent.success r :: post) ∧
        (∀ e ∈ mid, e.settles = false) ∧ (TextFlow.init.run pre).accepts ∧
        TextFlow.init.run plainSession =
          TextFlow.init.run (pre ++ TextEvent.submit :: (mid ++ [TextEvent.success r])) ∧
        detectAIText fiftyLetters ⟨threeQuarters, oneQuarter, half⟩ =
          detectAIText (TextFlow.init.run pre).ui.text r ∧
        (TextFlow.init.noEditInFlight plainSession = true →
          (TextFlow.init.run pre).ui.text = (TextFlow.init.run plainSession).ui.text)) ∧
      ∃ r, detectAIText fiftyLetters ⟨threeQuarters, oneQuarter, half⟩ =
        detectAIText (TextFlow.init.run plainSession).ui.text r :=
  ⟨by decide!, by decide!,
    (C9_displayed_result_provenance plainSession
      (detectAIText fiftyLetters ⟨threeQuarters, oneQuarter, half⟩) (by decide!)).1,
    (C9_displayed_result_provenance plainSession
      (detectAIText fiftyLetters ⟨threeQuarters, oneQuarter, half⟩) (by decide!)).2
      (by decide!)⟩

/-! ## The text statistics (C10) -/

theorem splitGo_length (sep : Char → Bool) (cs : List Char) :
    ∀ (skipping : Bool) (cur : List Char),
      (splitGo sep skipping cur cs).length = countRuns sep skipping cs + 1 := by
  induction cs with
  | nil => intro skipping cur; simp [splitGo, countRuns]
  | cons c cs ih =>
    intro skipping cur
    simp only [splitGo, countRuns]
    split_ifs <;> simp [ih]

/-- The pieces of a split are one more than the runs of separator characters. -/
theorem jsSplit_length (sep : Char → Bool) (s : String) :
    (jsSplit sep s).length = countRuns sep false s.data + 1 :=
  splitGo_length sep s.data false []

/-- The `sentenceCount` of `detectAIText` is the number of maximal runs of `.`, `!`
and `?`. -/
theorem sentenceCount_eq (text : String) :
    (jsSplit isSentenceEnd text).length - 1 = specSentenceRuns text := by
  rw [jsSplit_length]
  rfl

theorem countRuns_complement (p : Char → Bool) (cs : List Char) :
    ∀ b : Bool,
      countRuns p (!b) cs + (endsOutside p b cs).toNat =
        countRuns (fun c => !p c) b cs + b.toNat := by
  induction cs with
  | nil => intro b; simp [countRuns, endsOutside]
  | cons c cs ih =>
    intro b
    have ht := ih true
    have hf := ih false
    simp only [Bool.not_true, Bool.not_false, Bool.toNat_true, Bool.toNat_false] at ht hf
    cases hc : p c <;> cases b <;>
      simp only [countRuns, endsOutside, hc, Bool.not_true, Bool.not_false, if_true,
        if_false, Bool.false_eq_true, Bool.toNat_true, Bool.toNat_false] <;> omega

/-- The `wordCount` of `detectAIText` is the number of words of the text when the
text begins and ends with a character that is not white space. -/
theorem wordCount_eq_of_no_outer_space (text : String) (c : Char) (cs : List Char)
    (hdata : text.data = c :: cs) (hfirst : isJSWhitespace c = false)
    (hlast : endsOutside isJSWhitespace true text.data = true) :
    (jsSplit isJSWhitespace text).length = specWordCount text := by
  rw [jsSplit_length]
  have h := countRuns_complement isJSWhitespace text.data true
  rw [hlast] at h
  simp only [Bool.not_true, Bool.toNat_true] at h
  unfold specWordCount
  rw [hdata] at h ⊢
  simp only [countRuns, hfirst, Bool.not_false, if_true, if_false, Bool.false_eq_true] at h ⊢
  omega

/-- C10 (the code at the failing input): the text made of one space followed by 49
letters passes the guard of `analyzeText` and is handed to `detectAIText`; it has
one word and no sentence mark, yet the statistics entry reports two words and an
average sentence length of two words. -/
theorem C10_leading_space_counts_two_words :
    passesGuard leadingSpace ∧
      (analyzeText ⟨leadingSpace, false, none⟩).started = some leadingSpace ∧
      specWordCount leadingSpace = 1 ∧ specSentenceRuns leadingSpace = 0 ∧
      ∀ r, (detectAIText leadingSpace r).details[2]? =
        some "Text contains 2 words with an average sentence length of 2 words" := by
  refine ⟨by decide, by decide, by decide, by decide, ?_⟩
  intro r
  rw [detectAIText_stats]
  decide!

end AiGenerator
